import Mathlib

/-!
Verification development for the AgentGraph-Intel repository.

The definitions below are a shallow embedding of the JavaScript sources:

* `src/frontend/src/hooks/useChat.js` (chat state, `send`)
* `src/frontend/src/services/api.js` (`sendMessage` request body)
* `src/frontend/src/components/chat/ChatWindow.jsx` / `MessageBubble`
  (agent-trail and sources rendering)
* `src/frontend/src/components/chat/AgentStatus.jsx` (loading animation)
* `src/frontend/src/hooks` graph hook and `GraphControls` (type filters)
* `src/frontend/src/pages/DocumentsPage.jsx` (`handleDelete`)

The Fusion Ranker of the Hybrid Retriever is not part of the sources in
this tree (only `docs/architecture.md` describes it); it is modelled from
the spec where indicated.
-/

namespace AgentGraph

/-- Message sender role, mirroring the `'user' | 'assistant'` field of the
`Message` typedef in `useChat.js`. -/
inductive Role where
  | user
  | assistant
deriving DecidableEq, Repr

/-- A source citation as consumed by `MessageBubble`
(`source.document`, `source.title`, `source.chunk`). -/
structure Source where
  document : Option String
  title : Option String
  chunk : Option String
deriving DecidableEq, Repr

/-- A chat message as built by `useChat.js` (`addMessage` stamps `id` from
`Date.now().toString()` and `timestamp` from `Date.now()`). -/
structure Message where
  id : String
  role : Role
  content : String
  sources : List Source
  agent_trail : List String
  entities : List String
  timestamp : Nat
deriving DecidableEq, Repr

/-- The backend response consumed by `useChat.send`; fields other than
`answer` may be absent (`data.sources || []` etc.). The documented
response also carries `session_id`. -/
structure ChatResponse where
  answer : String
  session_id : Option String
  sources : Option (List Source)
  steps_taken : Option (List String)
  entities : Option (List String)
deriving DecidableEq, Repr

/-- JavaScript `String.prototype.trim()`: strips whitespace from both ends
of the string. Defined over the character list so that it evaluates inside
proofs. -/
def jsTrim (s : String) : String :=
  ⟨((s.data.dropWhile Char.isWhitespace).reverse.dropWhile Char.isWhitespace).reverse⟩

/-- The user message appended by `send` before the request is issued:
`addMessage({ role: 'user', content: query })`. -/
def mkUserMessage (query : String) (now : Nat) : Message :=
  { id := toString now, role := .user, content := query,
    sources := [], agent_trail := [], entities := [], timestamp := now }

/-- The assistant message appended on success:
`content: data.answer, sources: data.sources || [],
agent_trail: data.steps_taken || [], entities: data.entities || []`. -/
def mkAssistantMessage (data : ChatResponse) (now : Nat) : Message :=
  { id := toString now, role := .assistant, content := data.answer,
    sources := data.sources.getD [], agent_trail := data.steps_taken.getD [],
    entities := data.entities.getD [], timestamp := now }

/-- The assistant message appended in the catch branch:
`content: ⚠️ Error: ${err.message}` with empty `sources`,
`agent_trail` and `entities`. -/
def mkErrorMessage (errMsg : String) (now : Nat) : Message :=
  { id := toString now, role := .assistant, content := "⚠️ Error: " ++ errMsg,
    sources := [], agent_trail := [], entities := [], timestamp := now }

/-- The state managed by the `useChat` hook: `messages`, `isLoading`, `error`. -/
structure ChatState where
  messages : List Message
  isLoading : Bool
  error : Option String
deriving DecidableEq, Repr

/-- `useChat.send`: guards on an all-whitespace query or an in-flight request
(`if (!query.trim() || isLoading) return`), appends the user message, runs the
request, and appends either the assistant message (try) or the error message
(catch, which also sets `error`); `finally` resets `isLoading`. The outcome
of the awaited `sendMessage` call is passed in as `result`; `nowUser` and
`nowAssistant` stand for the two `Date.now()` readings. -/
def send (st : ChatState) (query : String) (result : Except String ChatResponse)
    (nowUser nowAssistant : Nat) : ChatState :=
  if jsTrim query = "" || st.isLoading then st
  else
    match result with
    | .ok data =>
        { messages := st.messages ++ [mkUserMessage query nowUser,
            mkAssistantMessage data nowAssistant],
          isLoading := false, error := none }
    | .error e =>
        { messages := st.messages ++ [mkUserMessage query nowUser,
            mkErrorMessage e nowAssistant],
          isLoading := false, error := some e }

/-- The query string handed to `sendMessage` by `send`, when the guard lets
the request go out; `none` when no HTTP request is issued. -/
def sendRequest (st : ChatState) (query : String) : Option String :=
  if jsTrim query = "" || st.isLoading then none else some query

/-- The JSON body posted by `sendMessage` in `api.js`:
`api.post('/chat', { query })` — a single `query` key. -/
def sendMessageBody (query : String) : List (String × String) :=
  [("query", query)]

/-- `InputBar.handleSend`: emits `value.trim()` through `onSend` only when
`value.trim()` is truthy and the bar is not disabled. -/
def handleSendEmits (value : String) (disabled : Bool) : Option String :=
  if jsTrim value ≠ "" ∧ disabled = false then some (jsTrim value) else none

/-- `MessageBubble` agent-trail rendering: the badge block appears inside the
`!isUser` section only when `message.agent_trail && message.agent_trail.length
> 0`, and then maps over `agent_trail` in order. `none` means the block is not
rendered. -/
def renderedAgentTrail (m : Message) : Option (List String) :=
  if m.role = .user then none
  else if m.agent_trail.isEmpty then none
  else some m.agent_trail

/-- `MessageBubble` sources toggle: rendered (showing the source count) inside
the `!isUser` section only when `message.sources && message.sources.length >
0`. -/
def renderedSourcesToggle (m : Message) : Option Nat :=
  if m.role = .user then none
  else if m.sources.isEmpty then none
  else some m.sources.length

/-- `MessageBubble` sources list: rendered inside the `!isUser` section when
`showSources && message.sources` (an array, even empty, is truthy in JS, so
the condition reduces to `showSources`). -/
def renderedSourcesList (m : Message) (showSources : Bool) : Option (List Source) :=
  if m.role = .user then none
  else if showSources then some m.sources
  else none

/-- Reachable values of the `showSources` local state of `MessageBubble`: it
starts `false` and is flipped only by clicking the sources toggle, which
exists only when the toggle is rendered. -/
inductive ShowSourcesReachable (m : Message) : Bool → Prop where
  | init : ShowSourcesReachable m false
  | toggle (b : Bool) : ShowSourcesReachable m b →
      (renderedSourcesToggle m).isSome → ShowSourcesReachable m (!b)

/-- `AGENT_STEPS` of `AgentStatus.jsx`, projected to the `agent` field. -/
def AGENT_STEPS : List String := ["router", "researcher", "kg_builder", "analyst"]

/-- The `setInterval` period of `AgentStatus.jsx`, in milliseconds. -/
def agentStatusIntervalMs : Nat := 1800

/-- The `stepIndex` state of `AgentStatus` after `n` interval ticks: starts at
`0`, each tick runs `(i) => (i + 1) % AGENT_STEPS.length`. -/
def stepIndexAfter : Nat → Nat
  | 0 => 0
  | n + 1 => (stepIndexAfter n + 1) % AGENT_STEPS.length

/-- The agent name displayed by `AgentStatus` after `n` ticks while a query is
loading. The component receives no props at all (`ChatWindow` renders
`<AgentStatus />`), so the query being processed cannot influence the display;
the unused parameter records that independence. -/
def agentStatusDisplay (_query : String) (n : Nat) : String :=
  AGENT_STEPS.getD (stepIndexAfter n) ""

/-- `ENTITY_TYPES` of `GraphControls`: the five filterable entity types. -/
def ENTITY_TYPES : List String := ["Person", "Organization", "Concept", "Technology", "Event"]

/-- The initial `activeFilters` state of `useGraph`: the five listed types map
to `true`; any other key is absent (`none`). -/
def initialFilters : String → Option Bool :=
  fun t => if t ∈ ENTITY_TYPES then some true else none

/-- `useGraph.toggleFilter`: `{ ...prev, [type]: !prev[type] }`. In JS,
`!undefined = true`, `!true = false`, `!false = true`, which is
`!((f t).getD false)`; the key is always present afterwards. -/
def toggleFilter (f : String → Option Bool) (t : String) : String → Option Bool :=
  fun s => if s = t then some (!((f t).getD false)) else f s

/-- A graph node as fetched by `useGraph` and filtered by entity type. -/
structure GraphNode where
  id : String
  name : String
  type : String
deriving DecidableEq, Repr

/-- `useGraph.filteredNodes`: `nodes.filter((n) => activeFilters[n.type] !==
false)` — a node passes unless its type is mapped to `false`; an absent key
(`undefined !== false`) passes. -/
def filteredNodes (nodes : List GraphNode) (f : String → Option Bool) : List GraphNode :=
  nodes.filter (fun n => decide (f n.type ≠ some false))

/-- A sequence of `toggleFilter` clicks applied in order. -/
def applyToggles (ts : List String) (f : String → Option Bool) : String → Option Bool :=
  ts.foldl toggleFilter f

/-- A document record as listed on the Documents page. -/
structure DocumentRec where
  id : String
  filename : String
deriving DecidableEq, Repr

/-- The state of `DocumentsPage`: `documents`, `loading`, `error`. -/
structure DocumentsState where
  documents : List DocumentRec
  loading : Bool
  error : Option String
deriving DecidableEq, Repr

/-- `DocumentsPage.handleDelete`: on a successful `deleteDocument(docId)` the
list is replaced by `docs.filter((d) => d.id !== docId)`; on failure only
`error` is set from the rejection message. -/
def handleDelete (st : DocumentsState) (docId : String)
    (result : Except String Unit) : DocumentsState :=
  match result with
  | .ok _ => { st with documents := st.documents.filter (fun d => decide (d.id ≠ docId)) }
  | .error e => { st with error := some e }

/-- Modelled from the spec: the RRF weights of the Fusion Ranker
(`w_dense = 0.6`), whose implementation is not among the sources in this
tree — only `docs/architecture.md` §Reciprocal Rank Fusion describes it. -/
def wDense : ℚ := 6 / 10

/-- Modelled from the spec: the RRF sparse weight (`w_sparse = 0.4`). -/
def wSparse : ℚ := 4 / 10

/-- Modelled from the spec: the RRF constant `k = 60`. -/
def rrfK : ℚ := 60

/-- The 1-based rank of a chunk id in a ranked list, `none` when absent. -/
def rankOf : List String → String → Option Nat
  | [], _ => none
  | x :: xs, d => if x = d then some 1 else (rankOf xs d).map (· + 1)

/-- Modelled from the spec: one RRF term, `w / (k + rank)` when the chunk is
ranked, contributing `0` when it is absent from that list. -/
def rrfTerm (w : ℚ) (r : Option Nat) : ℚ :=
  match r with
  | some n => w / (rrfK + n)
  | none => 0

/-- Modelled from the spec: the fused RRF score of a chunk,
`score(d) = w_dense / (k + rank_dense(d)) + w_sparse / (k + rank_sparse(d))`
with an absent list contributing `0`. -/
def rrfScore (dense sparse : List String) (d : String) : ℚ :=
  rrfTerm wDense (rankOf dense d) + rrfTerm wSparse (rankOf sparse d)

/-- Modelled from the spec: the dense-rank tie-break key; a chunk absent from
the dense list sorts after every ranked chunk. -/
def denseTieKey (dense : List String) (d : String) : Nat :=
  (rankOf dense d).getD (dense.length + 1)

/-- Modelled from the spec: the full sort key of the fused list — score
descending (encoded by negation), then dense rank ascending, then `chunk_id`
lexicographically. -/
def rrfKey (dense sparse : List String) (d : String) : ℚ ×ₗ (Nat ×ₗ String) :=
  toLex (-(rrfScore dense sparse d), toLex (denseTieKey dense d, d))

/-- The ordering relation of the fused candidate list. -/
def rrfLE (dense sparse : List String) (a b : String) : Prop :=
  rrfKey dense sparse a ≤ rrfKey dense sparse b

instance (dense sparse : List String) : DecidableRel (rrfLE dense sparse) :=
  fun _ _ => inferInstanceAs (Decidable (_ ≤ _))

instance (dense sparse : List String) : IsTotal String (rrfLE dense sparse) :=
  ⟨fun a b => le_total (rrfKey dense sparse a) (rrfKey dense sparse b)⟩

instance (dense sparse : List String) : IsTrans String (rrfLE dense sparse) :=
  ⟨fun _ _ _ hab hbc => le_trans hab hbc⟩

/-- Modelled from the spec: the fused candidate list — every chunk appearing
in either ranked list, sorted descending by RRF score with ties broken by
dense rank then `chunk_id`, truncated to the fused size `F`. -/
def fusedCandidates (dense sparse : List String) (F : Nat) : List String :=
  (List.insertionSort (rrfLE dense sparse) ((dense ++ sparse).dedup)).take F

/-- A concrete backend response that carries an `entities` field. -/
def respWithEntities : ChatResponse :=
  { answer := "LangGraph is a library.", session_id := none, sources := none,
    steps_taken := none, entities := some ["LangGraph"] }

/-- The same response as `respWithEntities` but without the `entities`
field. -/
def respNoEntities : ChatResponse :=
  { answer := "LangGraph is a library.", session_id := none, sources := none,
    steps_taken := none, entities := none }

/-- A concrete assistant message carrying exactly one source citation. -/
def msgOneSource : Message :=
  mkAssistantMessage
    { answer := "ans", session_id := none,
      sources := some [{ document := some "doc.pdf", title := none, chunk := some "text" }],
      steps_taken := none, entities := none } 0

/-- C2: when the backend request of `send(query)` rejects, the hook appends
exactly one assistant message — the error bubble whose content is the failure
message prefixed with `⚠️ Error: ` and whose `sources`, `agent_trail` and
`entities` are empty — sets `error` to the failure message and resets
`isLoading` to `false`; the failure is never shown as a successful empty
answer. -/
theorem send_failure_surfaces_error (st : ChatState) (q e : String)
    (n1 n2 : Nat) (hq : jsTrim q ≠ "") (hl : st.isLoading = false) :
    send st q (.error e) n1 n2 =
      { messages := st.messages ++ [mkUserMessage q n1, mkErrorMessage e n2],
        isLoading := false, error := some e }
    ∧ (mkErrorMessage e n2).role = .assistant
    ∧ (mkErrorMessage e n2).content = "⚠️ Error: " ++ e
    ∧ (mkErrorMessage e n2).sources = []
    ∧ (mkErrorMessage e n2).agent_trail = []
    ∧ (mkErrorMessage e n2).entities = []
    ∧ (mkUserMessage q n1).role = .user := by
  refine ⟨?_, rfl, rfl, rfl, rfl, rfl, rfl⟩
  simp [send, hq, hl]

/-- Closed instance of `send_failure_surfaces_error` at a concrete state,
query and failure message. -/
theorem send_failure_surfaces_error_witness :
    jsTrim "hi" ≠ "" ∧
    (send ⟨[], false, none⟩ "hi" (.error "boom") 1 2 =
      { messages := [] ++ [mkUserMessage "hi" 1, mkErrorMessage "boom" 2],
        isLoading := false, error := some "boom" }
    ∧ (mkErrorMessage "boom" 2).role = .assistant
    ∧ (mkErrorMessage "boom" 2).content = "⚠️ Error: " ++ "boom"
    ∧ (mkErrorMessage "boom" 2).sources = []
    ∧ (mkErrorMessage "boom" 2).agent_trail = []
    ∧ (mkErrorMessage "boom" 2).entities = []
    ∧ (mkUserMessage "hi" 1).role = .user) :=
  ⟨by decide, send_failure_surfaces_error ⟨[], false, none⟩ "hi" "boom" 1 2 (by decide) rfl⟩

/-- C4: for every assistant message built from a backend response, the
agent-trail badge block is rendered iff `steps_taken` is non-empty, and the
badges are exactly the elements of `steps_taken` in their original order. -/
theorem agent_trail_badges_are_steps_taken (data : ChatResponse) (n : Nat) :
    renderedAgentTrail (mkAssistantMessage data n) =
      if (data.steps_taken.getD []).isEmpty then none
      else some (data.steps_taken.getD []) := by
  simp [renderedAgentTrail, mkAssistantMessage]

/-- C7: a blank-after-trim query or an in-flight request makes `send` a no-op
that issues no HTTP request; every query string handed to `sendMessage` is
non-empty after trimming, and `InputBar.handleSend` only emits the trimmed,
non-empty input value. -/
theorem send_guard_trimmed_nonempty (st : ChatState) (q value qq : String)
    (r : Except String ChatResponse) (n1 n2 : Nat) (disabled : Bool) :
    ((jsTrim q = "" ∨ st.isLoading = true) →
      send st q r n1 n2 = st ∧ sendRequest st q = none)
    ∧ (sendRequest st q = some qq → jsTrim qq ≠ "")
    ∧ (handleSendEmits value disabled = some qq → qq = jsTrim value ∧ qq ≠ "") := by
  refine ⟨?_, ?_, ?_⟩
  · intro h
    have hc : (decide (jsTrim q = "") || st.isLoading) = true := by
      rcases h with h | h
      · simp [h]
      · simp [h]
    exact ⟨by simp [send, hc], by simp [sendRequest, hc]⟩
  · intro h
    by_cases hq : jsTrim q = ""
    · simp [sendRequest, hq] at h
    · by_cases hl : st.isLoading
      · simp [sendRequest, hl] at h
      · simp [sendRequest, hq, hl] at h
        rw [← h]
        exact hq
  · intro h
    by_cases hv : jsTrim value ≠ "" ∧ disabled = false
    · rw [handleSendEmits, if_pos hv] at h
      cases h
      exact ⟨rfl, hv.1⟩
    · rw [handleSendEmits, if_neg hv] at h
      cases h

/-- Closed instance of `send_guard_trimmed_nonempty` at a concrete state and
input value. -/
theorem send_guard_trimmed_nonempty_witness :
    ((jsTrim "   " = "" ∨ (⟨[], false, none⟩ : ChatState).isLoading = true) →
      send ⟨[], false, none⟩ "   " (.error "x") 0 0 = ⟨[], false, none⟩
        ∧ sendRequest ⟨[], false, none⟩ "   " = none)
    ∧ (sendRequest ⟨[], false, none⟩ "   " = some "hi" → jsTrim "hi" ≠ "")
    ∧ (handleSendEmits " hi " false = some "hi" → "hi" = jsTrim " hi " ∧ "hi" ≠ "") :=
  send_guard_trimmed_nonempty ⟨[], false, none⟩ "   " " hi " "hi" (.error "x") 0 0 false

/-- C9: the in-flight `AgentStatus` indicator is a function of elapsed ticks
alone — the step index after `n` ticks is `n % 4`, the displayed agent is the
same for any two queries, the cycle has period 4 starting at `router`, and the
tick interval is 1800 ms. -/
theorem agent_status_depends_only_on_time (q1 q2 : String) (n : Nat) :
    stepIndexAfter n = n % 4
    ∧ agentStatusDisplay q1 n = agentStatusDisplay q2 n
    ∧ agentStatusDisplay q1 (n + 4) = agentStatusDisplay q1 n
    ∧ agentStatusDisplay q1 n = AGENT_STEPS.getD (n % 4) ""
    ∧ agentStatusIntervalMs = 1800
    ∧ AGENT_STEPS = ["router", "researcher", "kg_builder", "analyst"] := by
  have hstep : ∀ m, stepIndexAfter m = m % 4 := by
    intro m
    induction m with
    | zero => rfl
    | succ k ih =>
        have hlen : AGENT_STEPS.length = 4 := rfl
        simp only [stepIndexAfter, ih, hlen]
        omega
  refine ⟨hstep n, rfl, ?_, by simp [agentStatusDisplay, hstep], rfl, rfl⟩
  simp only [agentStatusDisplay, hstep, Nat.add_mod_right]

/-- C10: a successful `deleteDocument(docId)` leaves the list equal to the
previous list with exactly the entries whose `id` equals `docId` removed
(order and other entries untouched, `loading` and `error` unchanged); a failed
deletion leaves the list and `loading` unchanged and only sets `error`. -/
theorem documents_delete_frame (st : DocumentsState) (docId e : String) :
    (handleDelete st docId (.ok ())).documents
        = st.documents.filter (fun d => decide (d.id ≠ docId))
    ∧ (∀ d, d ∈ (handleDelete st docId (.ok ())).documents ↔
        d ∈ st.documents ∧ d.id ≠ docId)
    ∧ ((handleDelete st docId (.ok ())).documents).Sublist st.documents
    ∧ (handleDelete st docId (.ok ())).loading = st.loading
    ∧ (handleDelete st docId (.ok ())).error = st.error
    ∧ (handleDelete st docId (.error e)).documents = st.documents
    ∧ (handleDelete st docId (.error e)).loading = st.loading
    ∧ (handleDelete st docId (.error e)).error = some e := by
  refine ⟨rfl, ?_, ?_, rfl, rfl, rfl, rfl, rfl⟩
  · intro d
    simp [handleDelete, List.mem_filter]
  · exact List.filter_sublist _

/-- C1 counterexample: the assistant message is not built from only the three
fields `answer`, `sources`, `steps_taken` — two responses that agree on all
three but differ on `entities` yield different messages, because the hook also
reads `data.entities`. -/
theorem assistant_message_reads_fourth_field :
    respWithEntities.answer = respNoEntities.answer
    ∧ respWithEntities.sources = respNoEntities.sources
    ∧ respWithEntities.steps_taken = respNoEntities.steps_taken
    ∧ mkAssistantMessage respWithEntities 0 ≠ mkAssistantMessage respNoEntities 0 := by
  refine ⟨rfl, rfl, rfl, ?_⟩
  decide

/-- C1 (amended): the assistant message is a function of exactly the four
response fields `answer`, `sources`, `steps_taken`, `entities` — `content`
from `answer`, `sources`/`agent_trail`/`entities` from the respective fields
with an absent field read as the empty list. -/
theorem assistant_message_projection (d1 d2 : ChatResponse) (n : Nat)
    (h1 : d1.answer = d2.answer) (h2 : d1.sources = d2.sources)
    (h3 : d1.steps_taken = d2.steps_taken) (h4 : d1.entities = d2.entities) :
    mkAssistantMessage d1 n = mkAssistantMessage d2 n
    ∧ (mkAssistantMessage d1 n).content = d1.answer
    ∧ (mkAssistantMessage d1 n).sources = d1.sources.getD []
    ∧ (mkAssistantMessage d1 n).agent_trail = d1.steps_taken.getD []
    ∧ (mkAssistantMessage d1 n).entities = d1.entities.getD []
    ∧ (mkAssistantMessage d1 n).role = .assistant := by
  refine ⟨?_, rfl, rfl, rfl, rfl, rfl⟩
  simp [mkAssistantMessage, h1, h2, h3, h4]

/-- Closed instance of `assistant_message_projection` at a concrete
response. -/
theorem assistant_message_projection_witness :
    respNoEntities.answer = respNoEntities.answer
    ∧ (mkAssistantMessage respNoEntities 0 = mkAssistantMessage respNoEntities 0
    ∧ (mkAssistantMessage respNoEntities 0).content = respNoEntities.answer
    ∧ (mkAssistantMessage respNoEntities 0).sources = respNoEntities.sources.getD []
    ∧ (mkAssistantMessage respNoEntities 0).agent_trail = respNoEntities.steps_taken.getD []
    ∧ (mkAssistantMessage respNoEntities 0).entities = respNoEntities.entities.getD []
    ∧ (mkAssistantMessage respNoEntities 0).role = .assistant) :=
  ⟨rfl, assistant_message_projection respNoEntities respNoEntities 0 rfl rfl rfl rfl⟩

/-- C3: the chat request body posted by `sendMessage` carries a single
`query` key — neither `session_id` nor `history` (nor the documented required
`message` field) is submitted. -/
theorem chat_request_body_only_query :
    (sendMessageBody "What is LangGraph?").map Prod.fst = ["query"]
    ∧ "session_id" ∉ (sendMessageBody "What is LangGraph?").map Prod.fst
    ∧ "history" ∉ (sendMessageBody "What is LangGraph?").map Prod.fst
    ∧ "message" ∉ (sendMessageBody "What is LangGraph?").map Prod.fst := by
  decide

/-- C6 counterexample: the numbered source list is not shown whenever
`sources` is non-empty — in the reachable initial state (`showSources =
false`) a message with one source renders no list. -/
theorem sources_list_hidden_until_toggled :
    msgOneSource.sources ≠ []
    ∧ ShowSourcesReachable msgOneSource false
    ∧ renderedSourcesList msgOneSource false = none :=
  ⟨by decide, .init, rfl⟩

/-- C6 (amended): for every assistant message, the source-count toggle is
rendered iff `sources` is non-empty; the numbered source list is rendered iff
the toggle has been expanded (`showSources = true`), and in every reachable
state a rendered list implies non-empty `sources` — so an answer without
supporting evidence never shows a sources UI. -/
theorem sources_ui_iff_nonempty (m : Message) (hrole : m.role = .assistant) :
    ((renderedSourcesToggle m).isSome ↔ m.sources ≠ [])
    ∧ (∀ b, ShowSourcesReachable m b →
        (renderedSourcesList m b).isSome → m.sources ≠ [])
    ∧ (∀ b, ShowSourcesReachable m b →
        ((renderedSourcesList m b).isSome ↔ b = true)) := by
  have htogne : (renderedSourcesToggle m).isSome → m.sources ≠ [] := by
    intro h hnil
    simp [renderedSourcesToggle, hrole, hnil] at h
  refine ⟨?_, ?_, ?_⟩
  · cases hs : m.sources with
    | nil => simp [renderedSourcesToggle, hrole, hs]
    | cons a l => simp [renderedSourcesToggle, hrole, hs]
  · intro b hb hshow
    cases hb with
    | init => simp [renderedSourcesList, hrole] at hshow
    | toggle b' hb' ht => exact htogne ht
  · intro b hb
    cases b <;> simp [renderedSourcesList, hrole]

/-- Closed instance of `sources_ui_iff_nonempty` at a concrete message. -/
theorem sources_ui_iff_nonempty_witness :
    msgOneSource.role = .assistant
    ∧ (((renderedSourcesToggle msgOneSource).isSome ↔ msgOneSource.sources ≠ [])
    ∧ (∀ b, ShowSourcesReachable msgOneSource b →
        (renderedSourcesList msgOneSource b).isSome → msgOneSource.sources ≠ [])
    ∧ (∀ b, ShowSourcesReachable msgOneSource b →
        ((renderedSourcesList msgOneSource b).isSome ↔ b = true))) :=
  ⟨rfl, sources_ui_iff_nonempty msgOneSource rfl⟩

/-- Applying a sequence of filter toggles, none of which touches the key `s`,
leaves the filter value at `s` unchanged. -/
theorem applyToggles_eq_of_not_mem (ts : List String) (f : String → Option Bool)
    (s : String) (hts : ∀ u ∈ ts, u ≠ s) : applyToggles ts f s = f s := by
  induction ts generalizing f with
  | nil => rfl
  | cons t ts ih =>
      have ht : t ≠ s := hts t (List.mem_cons_self t ts)
      have hst : ¬(s = t) := fun h => ht h.symm
      have hstep : toggleFilter f t s = f s := by
        simp only [toggleFilter, if_neg hst]
      calc applyToggles (t :: ts) f s
          = applyToggles ts (toggleFilter f t) s := rfl
        _ = toggleFilter f t s := ih _ (fun u hu => hts u (List.mem_cons_of_mem t hu))
        _ = f s := hstep

/-- C8: the filtered node set is a sublist of the fetched nodes; toggling a
type only changes that type's flag and toggling it twice restores the filter
state and the filtered set; a node whose type is not one of the five
filterable keys is always included, whatever listed-type toggles have been
applied. -/
theorem graph_filter_invariants (nodes : List GraphNode) (f : String → Option Bool)
    (t : String) (b : Bool) (ts : List String) (n : GraphNode) :
    (filteredNodes nodes f).Sublist nodes
    ∧ (∀ s, s ≠ t → toggleFilter f t s = f s)
    ∧ (f t = some b → toggleFilter f t t = some (!b))
    ∧ (f t = some b → toggleFilter (toggleFilter f t) t = f)
    ∧ (f t = some b →
        filteredNodes nodes (toggleFilter (toggleFilter f t) t) = filteredNodes nodes f)
    ∧ ((∀ u ∈ ts, u ∈ ENTITY_TYPES) → n.type ∉ ENTITY_TYPES → n ∈ nodes →
        n ∈ filteredNodes nodes (applyToggles ts initialFilters)) := by
  have htwice : f t = some b → toggleFilter (toggleFilter f t) t = f := by
    intro hb
    funext s
    by_cases hs : s = t
    · subst hs
      simp [toggleFilter, hb]
    · simp [toggleFilter, hs]
  refine ⟨List.filter_sublist _, ?_, ?_, htwice, ?_, ?_⟩
  · intro s hs
    simp [toggleFilter, hs]
  · intro hb
    simp [toggleFilter, hb]
  · intro hb
    rw [htwice hb]
  · intro hts hnt hn
    have hf : applyToggles ts initialFilters n.type = none := by
      rw [applyToggles_eq_of_not_mem ts initialFilters n.type
        (fun u hu hus => hnt (hus ▸ hts u hu))]
      simp [initialFilters, hnt]
    simp [filteredNodes, List.mem_filter, hn, hf]

/-- Closed instance of `graph_filter_invariants` at a concrete node list,
the initial filters and a concrete toggle sequence. -/
theorem graph_filter_invariants_witness :
    (filteredNodes [⟨"n1", "LangGraph", "TECHNOLOGY"⟩] initialFilters).Sublist
        [⟨"n1", "LangGraph", "TECHNOLOGY"⟩]
    ∧ (∀ s, s ≠ "Person" → toggleFilter initialFilters "Person" s = initialFilters s)
    ∧ (initialFilters "Person" = some true →
        toggleFilter initialFilters "Person" "Person" = some (!true))
    ∧ (initialFilters "Person" = some true →
        toggleFilter (toggleFilter initialFilters "Person") "Person" = initialFilters)
    ∧ (initialFilters "Person" = some true →
        filteredNodes [⟨"n1", "LangGraph", "TECHNOLOGY"⟩]
            (toggleFilter (toggleFilter initialFilters "Person") "Person")
          = filteredNodes [⟨"n1", "LangGraph", "TECHNOLOGY"⟩] initialFilters)
    ∧ ((∀ u ∈ ["Person", "Concept"], u ∈ ENTITY_TYPES) →
        (⟨"n1", "LangGraph", "TECHNOLOGY"⟩ : GraphNode).type ∉ ENTITY_TYPES →
        (⟨"n1", "LangGraph", "TECHNOLOGY"⟩ : GraphNode) ∈ [⟨"n1", "LangGraph", "TECHNOLOGY"⟩] →
        (⟨"n1", "LangGraph", "TECHNOLOGY"⟩ : GraphNode) ∈
          filteredNodes [⟨"n1", "LangGraph", "TECHNOLOGY"⟩]
            (applyToggles ["Person", "Concept"] initialFilters)) :=
  graph_filter_invariants [⟨"n1", "LangGraph", "TECHNOLOGY"⟩] initialFilters
    "Person" true ["Person", "Concept"] ⟨"n1", "LangGraph", "TECHNOLOGY"⟩

/-- Ranks produced by `rankOf` are 1-based. -/
theorem rankOf_one_le (l : List String) (d : String) (n : Nat)
    (h : rankOf l d = some n) : 1 ≤ n := by
  induction l generalizing n with
  | nil => cases h
  | cons x xs ih =>
      by_cases hx : x = d
      · simp [rankOf, hx] at h
        omega
      · simp only [rankOf, if_neg hx, Option.map_eq_some'] at h
        obtain ⟨m, _, rfl⟩ := h
        omega

/-- Each RRF term is bounded by the value it takes at rank 1. -/
theorem rrfTerm_le_rank_one (w : ℚ) (hw : 0 ≤ w) (l : List String) (d : String) :
    rrfTerm w (rankOf l d) ≤ w / 61 := by
  cases hr : rankOf l d with
  | none =>
      simp only [rrfTerm]
      positivity
  | some n =>
      have h1 : 1 ≤ n := rankOf_one_le l d n hr
      simp only [rrfTerm, rrfK]
      have hn : (1 : ℚ) ≤ (n : ℚ) := by exact_mod_cast h1
      have hden : (61 : ℚ) ≤ 60 + (n : ℚ) := by linarith
      gcongr

/-- A chunk ranked first in both lists attains the maximal RRF score. -/
theorem rrfScore_le_top (dense sparse : List String) (d1 d2 : String)
    (hd : rankOf dense d1 = some 1) (hs : rankOf sparse d1 = some 1) :
    rrfScore dense sparse d2 ≤ rrfScore dense sparse d1 := by
  have hwd : (0 : ℚ) ≤ wDense := by norm_num [wDense]
  have hws : (0 : ℚ) ≤ wSparse := by norm_num [wSparse]
  have h1 := rrfTerm_le_rank_one wDense hwd dense d2
  have h2 := rrfTerm_le_rank_one wSparse hws sparse d2
  have e1 : rrfTerm wDense (rankOf dense d1) = wDense / 61 := by
    rw [hd]
    simp only [rrfTerm, rrfK]
    norm_num
  have e2 : rrfTerm wSparse (rankOf sparse d1) = wSparse / 61 := by
    rw [hs]
    simp only [rrfTerm, rrfK]
    norm_num
  unfold rrfScore
  rw [e1, e2]
  exact add_le_add h1 h2

/-- C5: the fused candidate list is sorted by the RRF key — score descending,
ties by dense rank then `chunk_id` — hence pairwise non-increasing in RRF
score, and a chunk ranked #1 in both the dense and the sparse list scores at
least as high as every other chunk. -/
theorem rrf_fusion_ordering (dense sparse : List String) (F : Nat) (d1 : String)
    (hd : rankOf dense d1 = some 1) (hs : rankOf sparse d1 = some 1) :
    List.Sorted (rrfLE dense sparse) (fusedCandidates dense sparse F)
    ∧ (fusedCandidates dense sparse F).Pairwise
        (fun a b => rrfScore dense sparse b ≤ rrfScore dense sparse a)
    ∧ (∀ d2, rrfScore dense sparse d2 ≤ rrfScore dense sparse d1) := by
  have hsorted : List.Sorted (rrfLE dense sparse) (fusedCandidates dense sparse F) := by
    unfold fusedCandidates
    exact List.Pairwise.sublist (List.take_sublist _ _)
      (List.sorted_insertionSort _ _)
  have hpair : List.Pairwise (rrfLE dense sparse) (fusedCandidates dense sparse F) :=
    hsorted
  refine ⟨hsorted, ?_, fun d2 => rrfScore_le_top dense sparse d1 d2 hd hs⟩
  refine hpair.imp ?_
  intro a b hab
  unfold rrfLE rrfKey at hab
  have h := (Prod.Lex.le_iff _ _).mp hab
  rcases h with h | ⟨h, _⟩
  · simp only at h
    linarith
  · simp only at h
    have : rrfScore dense sparse a = rrfScore dense sparse b := by linarith
    exact le_of_eq this.symm

/-- Closed instance of `rrf_fusion_ordering` at concrete rank lists in which
the chunk `a` is ranked first both densely and sparsely. -/
theorem rrf_fusion_ordering_witness :
    rankOf ["a", "b"] "a" = some 1
    ∧ rankOf ["a", "c"] "a" = some 1
    ∧ (List.Sorted (rrfLE ["a", "b"] ["a", "c"]) (fusedCandidates ["a", "b"] ["a", "c"] 10)
    ∧ (fusedCandidates ["a", "b"] ["a", "c"] 10).Pairwise
        (fun x y => rrfScore ["a", "b"] ["a", "c"] y ≤ rrfScore ["a", "b"] ["a", "c"] x)
    ∧ (∀ d2, rrfScore ["a", "b"] ["a", "c"] d2 ≤ rrfScore ["a", "b"] ["a", "c"] "a")) :=
  ⟨by decide, by decide,
    rrf_fusion_ordering ["a", "b"] ["a", "c"] 10 "a" (by decide) (by decide)⟩

end AgentGraph
